import Mathlib

/-!
Shallow embedding of `src/script.py` (inventory reorder-point app).

Modelling conventions:
* warehouse (`bodega`) and product (`producto`) identifiers are opaque and
  modelled as `ℕ`;
* pandas timestamps are modelled as `ℚ` measured in days (the fractional part
  is the time of day); `pd.Timestamp.normalize()` is `Int.floor`;
* floats are modelled as `ℚ`; a missing value (`NaN` produced by the left
  join) is modelled as `none : Option ℚ`, and pandas comparisons against
  `NaN`, which are always `False`, are modelled by matching on the option;
* the pandas delivery dictionary `entregas` (built by accumulation in
  `build_active`, lines 72–77) is modelled by its lookup semantics: the total
  quantity delivered for a key on a normalized date.
-/

/-- A raw inventory row (columns of the inventory Excel file, line 32). -/
structure InvRaw where
  bodega : ℕ
  producto : ℕ
  inventario_actual : ℚ
  stock_seguridad : ℚ
  lead_time : ℚ
deriving DecidableEq, Repr

/-- A raw forecast row (columns of the forecast Excel file, line 33). -/
structure ForRaw where
  bodega : ℕ
  producto : ℕ
  fecha : ℚ
  pronostico_ventas : ℚ
deriving DecidableEq, Repr

/-- An aggregated inventory record: one row of `inv` after the
`groupby(["bodega","producto"]).agg` of lines 45–49. -/
structure InvRec where
  bodega : ℕ
  producto : ℕ
  inventario_actual : ℚ
  stock_seguridad : ℚ
  lead_time : ℚ
deriving DecidableEq, Repr

/-- An aggregated forecast record: one row of `forc` after the
`groupby(["bodega","producto","fecha"]).agg` of lines 50–52. -/
structure ForRec where
  bodega : ℕ
  producto : ℕ
  fecha : ℚ
  pronostico_ventas : ℚ
deriving DecidableEq, Repr

/-- A row of `base` (line 55): a forecast record left-joined with the
inventory record of its key; the three inventory columns are `none` when the
key has no inventory record (pandas `NaN`). -/
structure BaseRow where
  bodega : ℕ
  producto : ℕ
  fecha : ℚ
  pronostico_ventas : ℚ
  inventario_actual : Option ℚ
  stock_seguridad : Option ℚ
  lead_time : Option ℚ
deriving DecidableEq, Repr

/-- A recorded purchase: one element of `st.session_state["compras"]`
(lines 148–154). -/
structure Compra where
  bodega : ℕ
  producto : ℕ
  fecha_compra : ℚ
  fecha_entrega : ℚ
  cantidad : ℚ
deriving DecidableEq, Repr

/-- A row of `active` = `build_active(base, compras)` (lines 67–100):
a base row extended with the three derived columns. -/
structure ActiveRow where
  bodega : ℕ
  producto : ℕ
  fecha : ℚ
  pronostico_ventas : ℚ
  inventario_actual : Option ℚ
  stock_seguridad : Option ℚ
  lead_time : Option ℚ
  inventario_proyectado : ℚ
  punto_reorden : Option ℚ
  alerta : Bool
deriving DecidableEq, Repr

/-- Lookup semantics of the `entregas` dictionary (lines 72–77, 85, 89):
total quantity delivered for key `(b, p)` whose normalized delivery date
(`pd.Timestamp(c["fecha_entrega"]).normalize()`, line 75) is the day `d`. -/
def entregasDe (compras : List Compra) (b p : ℕ) (d : ℤ) : ℚ :=
  ((compras.filter fun c =>
      decide (c.bodega = b ∧ c.producto = p ∧ ⌊c.fecha_entrega⌋ = d)).map
    (fun c => c.cantidad)).sum

/-- Row order used inside each group (line 81, `grp.sort_values("fecha")`). -/
def fechaLe (r s : BaseRow) : Prop := r.fecha ≤ s.fecha

instance : DecidableRel fechaLe := fun r s => inferInstanceAs (Decidable (r.fecha ≤ s.fecha))

instance : IsTotal BaseRow fechaLe := ⟨fun r s => le_total r.fecha s.fecha⟩

instance : IsTrans BaseRow fechaLe := ⟨fun _ _ _ h h' => le_trans h h'⟩

instance : IsRefl BaseRow fechaLe := ⟨fun r => le_refl r.fecha⟩

/-- The `(b, p)` group of a dataframe, sorted by date
(lines 80–81: `df.groupby(["bodega","producto"])` then `sort_values("fecha")`). -/
def grupo (df : List BaseRow) (b p : ℕ) : List BaseRow :=
  List.insertionSort fechaLe (df.filter fun r => decide (r.bodega = b ∧ r.producto = p))

/-- The running inventory's start value (line 82): first row's
`inventario_actual`, `0.0` when it is `NaN`; `0` on an empty group
(`groupby` never produces one). -/
def invInicial (g : List BaseRow) : ℚ :=
  match g.head? with
  | none => 0
  | some r => r.inventario_actual.getD 0

/-- The temporal replay of lines 87–92: for each row, add the quantity
delivered on the row's normalized date, subtract the row's forecast, and
record the running level as the row's projected inventory. -/
def proyectar (ent : ℤ → ℚ) (inv_temp : ℚ) : List BaseRow → List (BaseRow × ℚ)
  | [] => []
  | r :: rs =>
      let v := inv_temp + ent ⌊r.fecha⌋ - r.pronostico_ventas
      (r, v) :: proyectar ent v rs

/-- The reorder point of a row (line 97):
`stock_seguridad + pronostico_ventas * lead_time`; `NaN` (here `none`) when
either inventory column is missing. -/
def puntoReordenDe (r : BaseRow) : Option ℚ :=
  match r.stock_seguridad, r.lead_time with
  | some s, some l => some (s + r.pronostico_ventas * l)
  | _, _ => none

/-- The alert flag of a row (line 98):
`inventario_proyectado <= punto_reorden`; pandas comparisons with `NaN` are
`False`. -/
def alertaDe (rp : Option ℚ) (v : ℚ) : Bool :=
  match rp with
  | none => false
  | some q => decide (v ≤ q)

/-- Attach the derived columns (lines 94, 97, 98) to a replayed row. -/
def mkActive (r : BaseRow) (v : ℚ) : ActiveRow :=
  { bodega := r.bodega, producto := r.producto, fecha := r.fecha,
    pronostico_ventas := r.pronostico_ventas,
    inventario_actual := r.inventario_actual,
    stock_seguridad := r.stock_seguridad, lead_time := r.lead_time,
    inventario_proyectado := v,
    punto_reorden := puntoReordenDe r,
    alerta := alertaDe (puntoReordenDe r) v }

/-- The `(b, p)` group of `build_active(base, compras)` (lines 67–100):
the group's rows in date order with projected inventory, reorder point and
alert flag attached. -/
def activeGrupo (base : List BaseRow) (compras : List Compra) (b p : ℕ) :
    List ActiveRow :=
  (proyectar (entregasDe compras b p) (invInicial (grupo base b p))
      (grupo base b p)).map
    fun x => mkActive x.1 x.2

/-- Projected inventory of row `i` (in date order) of the `(b, p)` group of
the active dataset; `0` past the end of the group. -/
def proyEn (base : List BaseRow) (compras : List Compra) (b p : ℕ) (i : ℕ) : ℚ :=
  (((activeGrupo base compras b p).map fun r => r.inventario_proyectado).getD i 0)

/-- Date of row `i` (in date order) of the `(b, p)` group; `0` past the end. -/
def fechaEn (base : List BaseRow) (b p : ℕ) (i : ℕ) : ℚ :=
  (((grupo base b p).map fun r => r.fecha).getD i 0)

-- Basic shape lemmas about the replay.

theorem proyectar_length (ent : ℤ → ℚ) (v : ℚ) (g : List BaseRow) :
    (proyectar ent v g).length = g.length := by
  induction g generalizing v with
  | nil => rfl
  | cons r rs ih => simp [proyectar, ih]

theorem proyectar_map_fst (ent : ℤ → ℚ) (v : ℚ) (g : List BaseRow) :
    (proyectar ent v g).map Prod.fst = g := by
  induction g generalizing v with
  | nil => rfl
  | cons r rs ih => simp [proyectar, ih]

theorem activeGrupo_length (base : List BaseRow) (compras : List Compra) (b p : ℕ) :
    (activeGrupo base compras b p).length = (grupo base b p).length := by
  simp [activeGrupo, proyectar_length]

/-- Per-row discrete change applied by the replay. -/
def cambioFila (ent : ℤ → ℚ) (r : BaseRow) : ℚ :=
  ent ⌊r.fecha⌋ - r.pronostico_ventas

theorem proyectar_getD (ent : ℤ → ℚ) (v : ℚ) (g : List BaseRow) (i : ℕ)
    (h : i < g.length) :
    ((proyectar ent v g).map Prod.snd).getD i 0 =
      v + (((g.take (i + 1)).map (cambioFila ent)).sum) := by
  induction g generalizing v i with
  | nil => exact absurd h (by simp)
  | cons r rs ih =>
      cases i with
      | zero => simp [proyectar, cambioFila]; ring
      | succ k =>
          have hk : k < rs.length := Nat.lt_of_succ_lt_succ h
          have := ih (v + ent ⌊r.fecha⌋ - r.pronostico_ventas) k hk
          simp only [proyectar, List.map_cons, List.getD_cons_succ,
            List.take_succ_cons, List.sum_cons] at this ⊢
          rw [this, cambioFila]
          ring

-- --------------------------------------------------------------------------
-- Normalizer (lines 43–56)
-- --------------------------------------------------------------------------

/-- Lexicographic order on `(bodega, producto)` keys: the order in which
`groupby(["bodega","producto"])` enumerates groups. -/
def keyLe2 (a b : ℕ × ℕ) : Prop :=
  a.1 < b.1 ∨ (a.1 = b.1 ∧ a.2 ≤ b.2)

instance : DecidableRel keyLe2 := fun a b =>
  inferInstanceAs (Decidable (a.1 < b.1 ∨ (a.1 = b.1 ∧ a.2 ≤ b.2)))

instance : IsTotal (ℕ × ℕ) keyLe2 := by
  constructor
  intro a b
  rcases lt_trichotomy a.1 b.1 with h | h | h
  · exact Or.inl (Or.inl h)
  · rcases le_total a.2 b.2 with h2 | h2
    · exact Or.inl (Or.inr ⟨h, h2⟩)
    · exact Or.inr (Or.inr ⟨h.symm, h2⟩)
  · exact Or.inr (Or.inl h)

instance : IsTrans (ℕ × ℕ) keyLe2 := by
  constructor
  rintro a b c (h | ⟨h, h2⟩) (h' | ⟨h', h2'⟩)
  · exact Or.inl (lt_trans h h')
  · exact Or.inl (h'.symm ▸ h)
  · exact Or.inl (h ▸ h')
  · exact Or.inr ⟨h.trans h', le_trans h2 h2'⟩

/-- Lexicographic order on `(bodega, producto, fecha)` keys: the order in
which `groupby(["bodega","producto","fecha"])` enumerates groups, and the
sort order of line 56. -/
def keyLe3 (a b : ℕ × ℕ × ℚ) : Prop :=
  a.1 < b.1 ∨ (a.1 = b.1 ∧ (a.2.1 < b.2.1 ∨ (a.2.1 = b.2.1 ∧ a.2.2 ≤ b.2.2)))

instance : DecidableRel keyLe3 := fun a b =>
  inferInstanceAs (Decidable (a.1 < b.1 ∨
    (a.1 = b.1 ∧ (a.2.1 < b.2.1 ∨ (a.2.1 = b.2.1 ∧ a.2.2 ≤ b.2.2)))))

instance : IsTotal (ℕ × ℕ × ℚ) keyLe3 := by
  constructor
  intro a b
  rcases lt_trichotomy a.1 b.1 with h | h | h
  · exact Or.inl (Or.inl h)
  · rcases lt_trichotomy a.2.1 b.2.1 with h2 | h2 | h2
    · exact Or.inl (Or.inr ⟨h, Or.inl h2⟩)
    · rcases le_total a.2.2 b.2.2 with h3 | h3
      · exact Or.inl (Or.inr ⟨h, Or.inr ⟨h2, h3⟩⟩)
      · exact Or.inr (Or.inr ⟨h.symm, Or.inr ⟨h2.symm, h3⟩⟩)
    · exact Or.inr (Or.inr ⟨h.symm, Or.inl h2⟩)
  · exact Or.inr (Or.inl h)

instance : IsTrans (ℕ × ℕ × ℚ) keyLe3 := by
  constructor
  rintro a b c (h | ⟨h, h2 | ⟨h2, h3⟩⟩) (h' | ⟨h', h2' | ⟨h2', h3'⟩⟩)
  · exact Or.inl (lt_trans h h')
  · exact Or.inl (h'.symm ▸ h)
  · exact Or.inl (h'.symm ▸ h)
  · exact Or.inl (h ▸ h')
  · exact Or.inr ⟨h.trans h', Or.inl (lt_trans h2 h2')⟩
  · exact Or.inr ⟨h.trans h', Or.inl (h2'.symm ▸ h2)⟩
  · exact Or.inl (h ▸ h')
  · exact Or.inr ⟨h.trans h', Or.inl (h2 ▸ h2')⟩
  · exact Or.inr ⟨h.trans h', Or.inr ⟨h2.trans h2', le_trans h3 h3'⟩⟩

/-- The key of a raw inventory row. -/
def claveInv (r : InvRaw) : ℕ × ℕ := (r.bodega, r.producto)

/-- The key of a raw forecast row. -/
def claveFor (r : ForRaw) : ℕ × ℕ × ℚ := (r.bodega, r.producto, r.fecha)

/-- Distinct `(bodega, producto)` keys of the raw inventory, in the sorted
order `groupby` enumerates them. -/
def invKeys (rows : List InvRaw) : List (ℕ × ℕ) :=
  List.insertionSort keyLe2 ((rows.map claveInv).dedup)

/-- Aggregation of one inventory group (lines 45–49):
`inventario_actual` summed, `stock_seguridad` and `lead_time` averaged. -/
def aggInv (rows : List InvRaw) (k : ℕ × ℕ) : InvRec :=
  let sel := rows.filter fun r => decide (claveInv r = k)
  { bodega := k.1, producto := k.2,
    inventario_actual := ((sel.map fun r => r.inventario_actual).sum),
    stock_seguridad := ((sel.map fun r => r.stock_seguridad).sum) / sel.length,
    lead_time := ((sel.map fun r => r.lead_time).sum) / sel.length }

/-- `inv` after the aggregation of lines 45–49. -/
def invNorm (rows : List InvRaw) : List InvRec :=
  (invKeys rows).map (aggInv rows)

/-- Distinct `(bodega, producto, fecha)` keys of the raw forecast, sorted. -/
def forKeys (rows : List ForRaw) : List (ℕ × ℕ × ℚ) :=
  List.insertionSort keyLe3 ((rows.map claveFor).dedup)

/-- Aggregation of one forecast group (lines 50–52):
`pronostico_ventas` summed. -/
def aggFor (rows : List ForRaw) (k : ℕ × ℕ × ℚ) : ForRec :=
  let sel := rows.filter fun r => decide (claveFor r = k)
  { bodega := k.1, producto := k.2.1, fecha := k.2.2,
    pronostico_ventas := ((sel.map fun r => r.pronostico_ventas).sum) }

/-- `forc` after the aggregation of lines 50–52. -/
def forNorm (rows : List ForRaw) : List ForRec :=
  (forKeys rows).map (aggFor rows)

/-- The inventory record of a key, if any (the left join's lookup). -/
def buscarInv (inv : List InvRec) (b p : ℕ) : Option InvRec :=
  inv.find? fun r => decide (r.bodega = b ∧ r.producto = p)

/-- One row of `base` (line 55): a forecast record with the inventory
columns of its key attached; `none` (pandas `NaN`) when no record matches. -/
def joinRow (inv : List InvRec) (f : ForRec) : BaseRow :=
  match buscarInv inv f.bodega f.producto with
  | some ir =>
      { bodega := f.bodega, producto := f.producto, fecha := f.fecha,
        pronostico_ventas := f.pronostico_ventas,
        inventario_actual := some ir.inventario_actual,
        stock_seguridad := some ir.stock_seguridad,
        lead_time := some ir.lead_time }
  | none =>
      { bodega := f.bodega, producto := f.producto, fecha := f.fecha,
        pronostico_ventas := f.pronostico_ventas,
        inventario_actual := none, stock_seguridad := none, lead_time := none }

/-- `base` (lines 55–56): the left join of the normalized forecast with the
normalized inventory. The sort of line 56 is the identity here because the
join preserves the `(bodega, producto, fecha)`-sorted order of `forNorm`
(proved in `baseOf_sorted`). -/
def baseOf (inv : List InvRec) (forc : List ForRec) : List BaseRow :=
  forc.map (joinRow inv)

/-- The full pipeline from raw tables to `base`. -/
def baseDe (rawInv : List InvRaw) (rawFor : List ForRaw) : List BaseRow :=
  baseOf (invNorm rawInv) (forNorm rawFor)

/-- Sort order of `base` (line 56): `(bodega, producto, fecha)` ascending. -/
def baseRowLe (r s : BaseRow) : Prop :=
  keyLe3 (r.bodega, r.producto, r.fecha) (s.bodega, s.producto, s.fecha)

-- --------------------------------------------------------------------------
-- Purchase registration (lines 135–154)
-- --------------------------------------------------------------------------

/-- Python `int()` applied to a float: truncation toward zero (line 139). -/
def pyInt (q : ℚ) : ℤ :=
  if 0 ≤ q then ⌊q⌋ else ⌈q⌉

/-- How a registration attempt can fail. -/
inductive RegError where
  /-- `lt_mask.any()` is false: the key has no row in `base`
  (lines 140–142, `st.error` + `st.stop`). -/
  | unknownKey : RegError
  /-- The key's `lead_time` in `base` is `NaN` (no inventory record) and
  `int(...)` at line 139 raises `ValueError`. -/
  | leadTimeNaN : RegError
deriving DecidableEq, Repr

/-- The registration action (lines 135–154): look up the key's `lead_time`
from `base` (first matching row), compute
`fecha_entrega = fecha_compra + lead_time` in days, and append the purchase.
`fecha_compra` comes from a `date_input` widget, hence a whole day (`ℤ`). -/
def registrar (base : List BaseRow) (compras : List Compra) (b p : ℕ)
    (fecha_compra : ℤ) (cantidad : ℚ) : Except RegError (List Compra) :=
  match (base.filter fun r => decide (r.bodega = b ∧ r.producto = p)).head? with
  | none => .error .unknownKey
  | some r =>
      match r.lead_time with
      | none => .error .leadTimeNaN
      | some q =>
          let lt : ℤ := pyInt q
          .ok (compras ++ [{ bodega := b, producto := p,
                             fecha_compra := (fecha_compra : ℚ),
                             fecha_entrega := ((fecha_compra + lt : ℤ) : ℚ),
                             cantidad := cantidad }])

/-- The session ledger after a registration attempt: on failure the script
stops before appending (line 142), so the ledger is unchanged. -/
def comprasTras (res : Except RegError (List Compra)) (old : List Compra) :
    List Compra :=
  match res with
  | .ok l => l
  | .error _ => old

-- --------------------------------------------------------------------------
-- Reorder summarizer (lines 165–193)
-- --------------------------------------------------------------------------

/-- Status classification of a summary row (line 181): the three string
labels `"🔴 Reorden"`, `"🟡 Cerca"`, `"🟢 OK"`. -/
inductive Estado where
  | reorden : Estado
  | cerca : Estado
  | ok : Estado
deriving DecidableEq, Repr

/-- Line 181: `"🔴 Reorden" if dias is not None and dias <= 0 else
("🟡 Cerca" if dias is not None and dias <= 5 else "🟢 OK")`. -/
def estadoDe : Option ℤ → Estado
  | some d => if d ≤ 0 then .reorden else if d ≤ 5 then .cerca else .ok
  | none => .ok

/-- The per-group fields of a summary row (lines 183–193) that depend on the
alert scan; the copied inventory columns are omitted. -/
structure Resumen where
  fecha_reorden : Option ℚ
  cantidad_sugerida : ℚ
  dias : Option ℤ
  estado : Estado
deriving DecidableEq, Repr

/-- The summary of one group (lines 166–193): scan the date-ordered group
for the first row with `inventario_proyectado <= punto_reorden`
(lines 168–171); if found, take that row's date, suggest
`max(stock_seguridad * 2 - inventario_proyectado, 0)` (line 175), and count
whole days from `now` to the breach date, both normalized (line 180). -/
def resumenGrupo (now : ℚ) (g : List ActiveRow) : Resumen :=
  match g.find? (fun r => r.alerta) with
  | some r =>
      let dias : ℤ := ⌊r.fecha⌋ - ⌊now⌋
      { fecha_reorden := some r.fecha,
        cantidad_sugerida :=
          max (r.stock_seguridad.getD 0 * 2 - r.inventario_proyectado) 0,
        dias := some dias,
        estado := estadoDe (some dias) }
  | none =>
      { fecha_reorden := none, cantidad_sugerida := 0, dias := none,
        estado := estadoDe none }

-- --------------------------------------------------------------------------
-- Helper lemmas
-- --------------------------------------------------------------------------

theorem sum_map_sub {α : Type} (l : List α) (f g : α → ℚ) :
    (l.map fun x => f x - g x).sum = (l.map f).sum - (l.map g).sum := by
  induction l with
  | nil => simp
  | cons a l ih => simp [ih]; ring

/-- The replay only consults the delivery mapping at the rows' own
normalized dates. -/
theorem proyectar_congr (ent1 ent2 : ℤ → ℚ) (v : ℚ) (g : List BaseRow)
    (h : ∀ r ∈ g, ent1 ⌊r.fecha⌋ = ent2 ⌊r.fecha⌋) :
    proyectar ent1 v g = proyectar ent2 v g := by
  induction g generalizing v with
  | nil => rfl
  | cons r rs ih =>
      have hr := h r (List.mem_cons_self r rs)
      simp only [proyectar, hr]
      rw [ih _ fun s hs => h s (List.mem_cons_of_mem r hs)]

/-- Appending one purchase adds its quantity to the delivery mapping exactly
at its own key and normalized delivery date. -/
theorem entregasDe_append (compras : List Compra) (c : Compra) (b p : ℕ) (d : ℤ) :
    entregasDe (compras ++ [c]) b p d =
      entregasDe compras b p d +
        (if c.bodega = b ∧ c.producto = p ∧ ⌊c.fecha_entrega⌋ = d
          then c.cantidad else 0) := by
  unfold entregasDe
  rw [List.filter_append, List.map_append, List.sum_append]
  by_cases h : c.bodega = b ∧ c.producto = p ∧ ⌊c.fecha_entrega⌋ = d
  · simp [h]
  · simp [h]

/-- The underlying base rows of an active group. -/
theorem activeGrupo_map_base (base : List BaseRow) (compras : List Compra)
    (b p : ℕ) :
    ∀ r ∈ activeGrupo base compras b p,
      ∃ rb ∈ grupo base b p, ∃ v : ℚ, r = mkActive rb v := by
  intro r hr
  unfold activeGrupo at hr
  obtain ⟨x, hx, rfl⟩ := List.mem_map.mp hr
  refine ⟨x.1, ?_, x.2, rfl⟩
  have := proyectar_map_fst (entregasDe compras b p)
    (invInicial (grupo base b p)) (grupo base b p)
  rw [← this]
  exact List.mem_map_of_mem Prod.fst hx

/-- Closed form of the projected-inventory column. -/
theorem proyEn_eq (base : List BaseRow) (compras : List Compra) (b p : ℕ)
    (i : ℕ) (h : i < (grupo base b p).length) :
    proyEn base compras b p i =
      invInicial (grupo base b p) +
        (((grupo base b p).take (i + 1)).map
          (cambioFila (entregasDe compras b p))).sum := by
  unfold proyEn activeGrupo
  rw [List.map_map]
  have hfun : ((fun r : ActiveRow => r.inventario_proyectado) ∘
      fun x : BaseRow × ℚ => mkActive x.1 x.2) = Prod.snd := rfl
  rw [hfun, proyectar_getD _ _ _ _ h]

/-- `fechaEn` at a valid index reads the group row's date. -/
theorem fechaEn_eq (base : List BaseRow) (b p : ℕ) (i : ℕ)
    (h : i < (grupo base b p).length) :
    fechaEn base b p i = ((grupo base b p).get (Fin.mk i h)).fecha := by
  unfold fechaEn
  rw [List.getD_eq_getElem?_getD, List.getElem?_map,
    List.getElem?_eq_getElem h, Option.map_some', Option.getD_some,
    List.get_eq_getElem]

/-- The group is sorted by date. -/
theorem grupo_sorted (base : List BaseRow) (b p : ℕ) :
    (grupo base b p).Sorted fechaLe :=
  List.sorted_insertionSort fechaLe _

/-- Every row of a group carries the group's key. -/
theorem grupo_key (base : List BaseRow) (b p : ℕ) :
    ∀ r ∈ grupo base b p, r.bodega = b ∧ r.producto = p := by
  intro r hr
  unfold grupo at hr
  have hmem : r ∈ (base.filter fun r =>
      decide (r.bodega = b ∧ r.producto = p)) :=
    (List.perm_insertionSort fechaLe _).mem_iff.mp hr
  have := List.of_mem_filter hmem
  exact of_decide_eq_true this

/-- First-hit characterization of `List.find?`. -/
theorem find?_first {α : Type} (P : α → Bool) (l : List α) (a : α)
    (h : l.find? P = some a) :
    ∃ j : ℕ, ∃ hj : j < l.length, l.get (Fin.mk j hj) = a ∧ P a = true ∧
      ∀ k : ℕ, ∀ hk : k < l.length, k < j → P (l.get (Fin.mk k hk)) = false := by
  induction l with
  | nil => simp at h
  | cons x xs ih =>
      by_cases hx : P x
      · rw [List.find?_cons_of_pos _ hx] at h
        refine ⟨0, by simp, by simpa using h, ?_, ?_⟩
        · cases h; exact hx
        · intro k hk hk0; omega
      · rw [List.find?_cons_of_neg _ hx] at h
        obtain ⟨j, hj, hja, hPa, hfirst⟩ := ih h
        refine ⟨j + 1, by simpa using Nat.succ_lt_succ hj, by simpa using hja,
          hPa, ?_⟩
        intro k hk hkj
        cases k with
        | zero => simpa using hx
        | succ m =>
            have hm : m < xs.length := by simpa using Nat.lt_of_succ_lt_succ hk
            have := hfirst m hm (Nat.lt_of_succ_lt_succ hkj)
            simpa using this


-- --------------------------------------------------------------------------
-- Claims
-- --------------------------------------------------------------------------

/-- C4: on every row of the projected dataset and for every ledger state, the
reorder point equals `stock_seguridad + pronostico_ventas * lead_time`
(computed per row, independent of the purchase history), and the alert flag
holds exactly when the projected inventory is at most the reorder point. -/
theorem claim_C4 (base : List BaseRow) (compras1 compras2 : List Compra)
    (b p : ℕ) :
    (((activeGrupo base compras1 b p).map fun r => r.punto_reorden) =
      ((activeGrupo base compras2 b p).map fun r => r.punto_reorden))
    ∧ ∀ r ∈ activeGrupo base compras1 b p, ∀ s l : ℚ,
        r.stock_seguridad = some s → r.lead_time = some l →
        r.punto_reorden = some (s + r.pronostico_ventas * l)
        ∧ (r.alerta = true ↔ r.inventario_proyectado ≤ s + r.pronostico_ventas * l) := by
  have key : ∀ compras : List Compra,
      ((activeGrupo base compras b p).map fun r => r.punto_reorden) =
        (grupo base b p).map puntoReordenDe := by
    intro compras
    unfold activeGrupo
    rw [List.map_map]
    conv_rhs =>
      rw [← proyectar_map_fst (entregasDe compras b p)
        (invInicial (grupo base b p)) (grupo base b p), List.map_map]
    rfl
  constructor
  · rw [key compras1, key compras2]
  · intro r hr s l hs hl
    obtain ⟨rb, _, v, rfl⟩ := activeGrupo_map_base base compras1 b p r hr
    have hs' : rb.stock_seguridad = some s := hs
    have hl' : rb.lead_time = some l := hl
    have hpunto : puntoReordenDe rb = some (s + rb.pronostico_ventas * l) := by
      unfold puntoReordenDe
      rw [hs', hl']
    refine ⟨by simpa [mkActive] using hpunto, ?_⟩
    show alertaDe (puntoReordenDe rb) v = true ↔ v ≤ s + rb.pronostico_ventas * l
    rw [hpunto]
    unfold alertaDe
    exact ⟨of_decide_eq_true, decide_eq_true⟩

/-- Base row used by concrete witnesses. -/
def rbW4 : BaseRow :=
  { bodega := 0, producto := 0, fecha := 1, pronostico_ventas := 2,
    inventario_actual := some 10, stock_seguridad := some 3,
    lead_time := some 4 }

/-- Evaluation of the projection on the one-row dataset `[rbW4]` with an
empty ledger: projected inventory `10 - 2 = 8`. -/
theorem activeGrupo_rbW4_eval : activeGrupo [rbW4] [] 0 0 = [mkActive rbW4 8] := by
  simp [activeGrupo, grupo, List.insertionSort, List.orderedInsert, rbW4,
    invInicial, entregasDe, proyectar, mkActive]
  norm_num

theorem claim_C4_witness :
    (((activeGrupo [rbW4] [] 0 0).map fun r => r.punto_reorden) =
      ((activeGrupo [rbW4]
        [{ bodega := 0, producto := 0, fecha_compra := 0, fecha_entrega := 1,
           cantidad := 5 }] 0 0).map fun r => r.punto_reorden))
    ∧ mkActive rbW4 8 ∈ activeGrupo [rbW4] [] 0 0
    ∧ (mkActive rbW4 8).stock_seguridad = some 3
    ∧ (mkActive rbW4 8).lead_time = some 4
    ∧ (mkActive rbW4 8).punto_reorden =
        some (3 + (mkActive rbW4 8).pronostico_ventas * 4)
    ∧ ((mkActive rbW4 8).alerta = true ↔
        (mkActive rbW4 8).inventario_proyectado ≤
          3 + (mkActive rbW4 8).pronostico_ventas * 4) := by
  have hmem : mkActive rbW4 8 ∈ activeGrupo [rbW4] [] 0 0 := by
    rw [activeGrupo_rbW4_eval]
    exact List.mem_singleton.mpr rfl
  have h := claim_C4 [rbW4] []
    [{ bodega := 0, producto := 0, fecha_compra := 0, fecha_entrega := 1,
       cantidad := 5 }] 0 0
  have h2 := h.2 (mkActive rbW4 8) hmem 3 4 (by simp [mkActive, rbW4])
    (by simp [mkActive, rbW4])
  exact ⟨h.1, hmem, by simp [mkActive, rbW4], by simp [mkActive, rbW4],
    h2.1, h2.2⟩

/-- Follows the spec's words (§8, Conservation) for comparison with the
code: on-hand quantity, plus the quantities of all ledger deliveries for the
key dated on or before row `i`'s date, minus the forecast quantities of rows
`0..i`. -/
def specConservation (base : List BaseRow) (compras : List Compra)
    (b p : ℕ) (i : ℕ) : ℚ :=
  invInicial (grupo base b p)
    + ((compras.filter fun c =>
        decide (c.bodega = b ∧ c.producto = p ∧
          c.fecha_entrega ≤ fechaEn base b p i)).map fun c => c.cantidad).sum
    - (((grupo base b p).take (i + 1)).map fun r => r.pronostico_ventas).sum

/-- Dataset for the C1 counterexample: a single forecast row on day 1 with
zero forecast and zero stock. -/
def baseCex1 : List BaseRow :=
  [{ bodega := 0, producto := 0, fecha := 1, pronostico_ventas := 0,
     inventario_actual := some 0, stock_seguridad := some 0,
     lead_time := some 0 }]

/-- A purchase of 5 units delivered on day 0, a date with no forecast row. -/
def compraCex1 : Compra :=
  { bodega := 0, producto := 0, fecha_compra := 0, fecha_entrega := 0,
    cantidad := 5 }

/-- C1 fails as stated: with one forecast row on day 1 and a delivery of 5
units on day 0 (no forecast row there), the code leaves the projection at 0
while the spec's conservation formula counts the delivery (day 0 ≤ day 1)
and yields 5. -/
theorem claim_C1_counterexample :
    proyEn baseCex1 [compraCex1] 0 0 0 = 0
    ∧ specConservation baseCex1 [compraCex1] 0 0 0 = 5
    ∧ proyEn baseCex1 [compraCex1] 0 0 0 ≠
        specConservation baseCex1 [compraCex1] 0 0 0 := by
  have h1 : proyEn baseCex1 [compraCex1] 0 0 0 = 0 := by
    simp [proyEn, activeGrupo, grupo, List.insertionSort, List.orderedInsert,
      baseCex1, compraCex1, invInicial, entregasDe, proyectar, mkActive]
  have h2 : specConservation baseCex1 [compraCex1] 0 0 0 = 5 := by
    simp [specConservation, grupo, List.insertionSort, List.orderedInsert,
      baseCex1, compraCex1, invInicial, entregasDe, fechaEn]
  refine ⟨h1, h2, ?_⟩
  rw [h1, h2]
  norm_num

/-- C1 (amended): row `i`'s projected inventory equals the group's on-hand
quantity (first row, `NaN` as zero) plus, over rows `0..i`, the quantity the
ledger delivers exactly on each row's normalized date, minus the forecast
quantities of rows `0..i`. Deliveries dated on days with no forecast row are
not counted. -/
theorem claim_C1_amended (base : List BaseRow) (compras : List Compra)
    (b p : ℕ) (i : ℕ) (h : i < (grupo base b p).length) :
    proyEn base compras b p i =
      invInicial (grupo base b p)
        + (((grupo base b p).take (i + 1)).map
            fun r => entregasDe compras b p ⌊r.fecha⌋).sum
        - (((grupo base b p).take (i + 1)).map
            fun r => r.pronostico_ventas).sum := by
  rw [proyEn_eq base compras b p i h]
  have hsub := sum_map_sub ((grupo base b p).take (i + 1))
    (fun r => entregasDe compras b p ⌊r.fecha⌋)
    (fun r => r.pronostico_ventas)
  have hfun : (((grupo base b p).take (i + 1)).map
      (cambioFila (entregasDe compras b p))).sum =
      (((grupo base b p).take (i + 1)).map
        fun r => entregasDe compras b p ⌊r.fecha⌋ - r.pronostico_ventas).sum := rfl
  rw [hfun, hsub]
  ring

theorem claim_C1_amended_witness :
    0 < (grupo baseCex1 0 0).length
    ∧ proyEn baseCex1 [compraCex1] 0 0 0 =
        invInicial (grupo baseCex1 0 0)
          + (((grupo baseCex1 0 0).take 1).map
              fun r => entregasDe [compraCex1] 0 0 ⌊r.fecha⌋).sum
          - (((grupo baseCex1 0 0).take 1).map
              fun r => r.pronostico_ventas).sum := by
  have hlen : 0 < (grupo baseCex1 0 0).length := by
    simp [grupo, List.insertionSort, List.orderedInsert, baseCex1]
  exact ⟨hlen, claim_C1_amended baseCex1 [compraCex1] 0 0 0 hlen⟩

/-- In a date-sorted group, every row among the first `i + 1` is dated no
later than row `i`. -/
theorem take_fecha_le (g : List BaseRow) (hg : g.Sorted fechaLe) (i : ℕ)
    (hi : i < g.length) (r : BaseRow) (hr : r ∈ g.take (i + 1)) :
    r.fecha ≤ (g.get (Fin.mk i hi)).fecha := by
  obtain ⟨⟨k, hk⟩, hkr⟩ := List.mem_iff_get.mp hr
  have hlen : (g.take (i + 1)).length = min (i + 1) g.length := by
    simp [List.length_take]
  have hk2 : k < min (i + 1) g.length := hlen ▸ hk
  have hk1 : k < i + 1 := by omega
  have hkg : k < g.length := by omega
  have heq : (g.take (i + 1)).get (Fin.mk k hk) = g.get (Fin.mk k hkg) := by
    rw [List.get_eq_getElem, List.get_eq_getElem]
    have hopt := List.getElem?_take_of_lt (l := g) (n := i + 1) (m := k) hk1
    rw [List.getElem?_eq_getElem hk, List.getElem?_eq_getElem hkg] at hopt
    exact Option.some.inj hopt
  have hki : k ≤ i := Nat.lt_succ_iff.mp hk1
  have hrel := hg.rel_get_of_le (a := Fin.mk k hkg) (b := Fin.mk i hi) hki
  calc r.fecha = ((g.take (i + 1)).get (Fin.mk k hk)).fecha := by rw [hkr]
  _ = (g.get (Fin.mk k hkg)).fecha := by rw [heq]
  _ ≤ (g.get (Fin.mk i hi)).fecha := hrel

/-- C2: a purchase whose normalized delivery date matches no forecast-row
date of its group changes nothing: the recomputed active dataset is
identical on every group, so the delivered quantity is applied nowhere. -/
theorem claim_C2 (base : List BaseRow) (compras : List Compra) (c : Compra)
    (h : ∀ r ∈ grupo base c.bodega c.producto, ⌊r.fecha⌋ ≠ ⌊c.fecha_entrega⌋) :
    ∀ b p : ℕ, activeGrupo base (compras ++ [c]) b p = activeGrupo base compras b p := by
  intro b p
  unfold activeGrupo
  have hent : ∀ r ∈ grupo base b p,
      entregasDe (compras ++ [c]) b p ⌊r.fecha⌋ =
        entregasDe compras b p ⌊r.fecha⌋ := by
    intro r hr
    rw [entregasDe_append]
    have hne : ¬(c.bodega = b ∧ c.producto = p ∧ ⌊c.fecha_entrega⌋ = ⌊r.fecha⌋) := by
      rintro ⟨hb, hp, hd⟩
      subst hb; subst hp
      exact h r hr hd.symm
    rw [if_neg hne, add_zero]
  rw [proyectar_congr _ _ _ _ hent]

/-- Purchase used by the C2 witness: delivered on day 0 while the only
forecast row of its group is on day 1. -/
def cW2 : Compra :=
  { bodega := 0, producto := 0, fecha_compra := 0, fecha_entrega := 0,
    cantidad := 5 }

theorem claim_C2_witness :
    (∀ r ∈ grupo [rbW4] cW2.bodega cW2.producto, ⌊r.fecha⌋ ≠ ⌊cW2.fecha_entrega⌋)
    ∧ activeGrupo [rbW4] ([] ++ [cW2]) 0 0 = activeGrupo [rbW4] [] 0 0 := by
  have hh : ∀ r ∈ grupo [rbW4] cW2.bodega cW2.producto,
      ⌊r.fecha⌋ ≠ ⌊cW2.fecha_entrega⌋ := by
    intro r hr
    simp only [grupo, cW2, rbW4, List.insertionSort, List.orderedInsert,
      List.filter] at hr
    norm_num at hr
    rw [hr]
    norm_num [rbW4, cW2]
  exact ⟨hh, claim_C2 [rbW4] [] cW2 hh 0 0⟩

/-- C3: appending one purchase of positive quantity (its delivery date is a
whole day, as every date the registration action constructs) never decreases
the projected inventory of a row of its group dated on or after the delivery
date, and leaves rows of its group dated before the delivery date
unchanged. -/
theorem claim_C3 (base : List BaseRow) (compras : List Compra) (c : Compra)
    (hq : 0 < c.cantidad) (hInt : c.fecha_entrega = (⌊c.fecha_entrega⌋ : ℚ))
    (i : ℕ) (hi : i < (grupo base c.bodega c.producto).length) :
    (c.fecha_entrega ≤ fechaEn base c.bodega c.producto i →
      proyEn base compras c.bodega c.producto i ≤
        proyEn base (compras ++ [c]) c.bodega c.producto i)
    ∧ (fechaEn base c.bodega c.producto i < c.fecha_entrega →
      proyEn base (compras ++ [c]) c.bodega c.producto i =
        proyEn base compras c.bodega c.producto i) := by
  have e1 := proyEn_eq base compras c.bodega c.producto i hi
  have e2 := proyEn_eq base (compras ++ [c]) c.bodega c.producto i hi
  constructor
  · intro _
    rw [e1, e2]
    have hpt : ∀ r ∈ (grupo base c.bodega c.producto).take (i + 1),
        cambioFila (entregasDe compras c.bodega c.producto) r ≤
          cambioFila (entregasDe (compras ++ [c]) c.bodega c.producto) r := by
      intro r _
      unfold cambioFila
      rw [entregasDe_append]
      have hite : (0:ℚ) ≤
          (if c.bodega = c.bodega ∧ c.producto = c.producto ∧
              ⌊c.fecha_entrega⌋ = ⌊r.fecha⌋ then c.cantidad else 0) := by
        split
        · exact le_of_lt hq
        · exact le_refl 0
      linarith
    have := List.sum_le_sum hpt
    linarith
  · intro hlt
    rw [e1, e2]
    have hpt : ∀ r ∈ (grupo base c.bodega c.producto).take (i + 1),
        cambioFila (entregasDe (compras ++ [c]) c.bodega c.producto) r =
          cambioFila (entregasDe compras c.bodega c.producto) r := by
      intro r hr
      unfold cambioFila
      rw [entregasDe_append]
      have hrf : r.fecha ≤ ((grupo base c.bodega c.producto).get (Fin.mk i hi)).fecha :=
        take_fecha_le _ (grupo_sorted base c.bodega c.producto) i hi r hr
      have hfe : fechaEn base c.bodega c.producto i =
          ((grupo base c.bodega c.producto).get (Fin.mk i hi)).fecha :=
        fechaEn_eq base c.bodega c.producto i hi
      have hne : ¬(c.bodega = c.bodega ∧ c.producto = c.producto ∧
          ⌊c.fecha_entrega⌋ = ⌊r.fecha⌋) := by
        rintro ⟨-, -, hd⟩
        have hlt' : r.fecha < (⌊c.fecha_entrega⌋ : ℚ) := by
          rw [← hInt]
          calc r.fecha ≤ ((grupo base c.bodega c.producto).get (Fin.mk i hi)).fecha := hrf
          _ < c.fecha_entrega := by rw [← hfe]; exact hlt
        have := Int.floor_lt.mpr hlt'
        omega
      rw [if_neg hne, add_zero]
    rw [List.map_congr_left hpt]

/-- Two-row dataset for the C3 witness. -/
def baseW3 : List BaseRow :=
  [{ bodega := 0, producto := 0, fecha := 1, pronostico_ventas := 2,
     inventario_actual := some 10, stock_seguridad := some 3,
     lead_time := some 4 },
   { bodega := 0, producto := 0, fecha := 2, pronostico_ventas := 1,
     inventario_actual := some 10, stock_seguridad := some 3,
     lead_time := some 4 }]

/-- Purchase of 5 units delivered on day 2 for the C3 witness. -/
def cW3 : Compra :=
  { bodega := 0, producto := 0, fecha_compra := 0, fecha_entrega := 2,
    cantidad := 5 }

theorem claim_C3_witness :
    0 < cW3.cantidad
    ∧ cW3.fecha_entrega = (⌊cW3.fecha_entrega⌋ : ℚ)
    ∧ 1 < (grupo baseW3 cW3.bodega cW3.producto).length
    ∧ cW3.fecha_entrega ≤ fechaEn baseW3 cW3.bodega cW3.producto 1
    ∧ proyEn baseW3 [] cW3.bodega cW3.producto 1 ≤
        proyEn baseW3 ([] ++ [cW3]) cW3.bodega cW3.producto 1 := by
  have h1 : (0:ℚ) < cW3.cantidad := by norm_num [cW3]
  have h2 : cW3.fecha_entrega = (⌊cW3.fecha_entrega⌋ : ℚ) := by norm_num [cW3]
  have h3 : 1 < (grupo baseW3 cW3.bodega cW3.producto).length := by
    simp [grupo, List.insertionSort, List.orderedInsert, baseW3, cW3, fechaLe]
  have h4 : cW3.fecha_entrega ≤ fechaEn baseW3 cW3.bodega cW3.producto 1 := by
    simp [fechaEn, grupo, List.insertionSort, List.orderedInsert, baseW3, cW3,
      fechaLe]
  exact ⟨h1, h2, h3, h4,
    (claim_C3 baseW3 [] cW3 h1 h2 1 h3).1 h4⟩

/-- A row that raises the alert carries a non-null `stock_seguridad`
(the comparison at line 98 is `False` against `NaN`). -/
theorem alerta_stock (base : List BaseRow) (compras : List Compra) (b p : ℕ)
    (r : ActiveRow) (hr : r ∈ activeGrupo base compras b p)
    (ha : r.alerta = true) :
    ∃ s : ℚ, r.stock_seguridad = some s := by
  obtain ⟨rb, _, v, rfl⟩ := activeGrupo_map_base base compras b p r hr
  cases hs : rb.stock_seguridad with
  | some s => exact ⟨s, hs⟩
  | none =>
      exfalso
      have hpunto : puntoReordenDe rb = none := by
        cases hl : rb.lead_time <;> simp [puntoReordenDe, hs, hl]
      have : (mkActive rb v).alerta = false := by
        simp [mkActive, alertaDe, hpunto]
      rw [this] at ha
      exact Bool.false_ne_true ha

/-- Shape of the summary when the scan finds an alerted row. -/
theorem resumenGrupo_some (now : ℚ) (g : List ActiveRow) (r : ActiveRow)
    (hfind : g.find? (fun r => r.alerta) = some r) :
    resumenGrupo now g =
      { fecha_reorden := some r.fecha,
        cantidad_sugerida :=
          max (r.stock_seguridad.getD 0 * 2 - r.inventario_proyectado) 0,
        dias := some (⌊r.fecha⌋ - ⌊now⌋),
        estado := estadoDe (some (⌊r.fecha⌋ - ⌊now⌋)) } := by
  unfold resumenGrupo
  rw [hfind]

/-- Shape of the summary when no row is alerted. -/
theorem resumenGrupo_none (now : ℚ) (g : List ActiveRow)
    (hfind : g.find? (fun r => r.alerta) = none) :
    resumenGrupo now g =
      { fecha_reorden := none, cantidad_sugerida := 0, dias := none,
        estado := Estado.ok } := by
  unfold resumenGrupo
  rw [hfind]
  rfl

/-- C5: when a group has an alerted row, the summary takes the first alerted
row in date order: its date becomes the next reorder date, the suggested
quantity is `max(stock_seguridad * 2 - projected_inventory, 0)` at that row,
and the days counter is the whole-day difference between that (normalized)
date and the (normalized) current time, possibly negative. -/
theorem claim_C5 (base : List BaseRow) (compras : List Compra) (b p : ℕ)
    (now : ℚ) (h : ∃ r ∈ activeGrupo base compras b p, r.alerta = true) :
    ∃ j : ℕ, ∃ hj : j < (activeGrupo base compras b p).length,
      ((activeGrupo base compras b p).get (Fin.mk j hj)).alerta = true
      ∧ (∀ k : ℕ, ∀ hk : k < (activeGrupo base compras b p).length, k < j →
          ((activeGrupo base compras b p).get (Fin.mk k hk)).alerta = false)
      ∧ ∃ s : ℚ,
          ((activeGrupo base compras b p).get (Fin.mk j hj)).stock_seguridad = some s
          ∧ (resumenGrupo now (activeGrupo base compras b p)).fecha_reorden =
              some ((activeGrupo base compras b p).get (Fin.mk j hj)).fecha
          ∧ (resumenGrupo now (activeGrupo base compras b p)).cantidad_sugerida =
              max (s * 2 -
                ((activeGrupo base compras b p).get (Fin.mk j hj)).inventario_proyectado) 0
          ∧ (resumenGrupo now (activeGrupo base compras b p)).dias =
              some (⌊((activeGrupo base compras b p).get (Fin.mk j hj)).fecha⌋ - ⌊now⌋) := by
  obtain ⟨r0, hr0, ha0⟩ := h
  cases hfind : (activeGrupo base compras b p).find? (fun r => r.alerta) with
  | none =>
      exfalso
      have := List.find?_eq_none.mp hfind r0 hr0
      simp [ha0] at this
  | some r =>
      obtain ⟨j, hj, hjr, hPr, hfirst⟩ :=
        find?_first (fun r => r.alerta) (activeGrupo base compras b p) r hfind
      have hmem : r ∈ activeGrupo base compras b p :=
        List.mem_of_find?_eq_some hfind
      obtain ⟨s, hs⟩ := alerta_stock base compras b p r hmem hPr
      have hres := resumenGrupo_some now (activeGrupo base compras b p) r hfind
      refine ⟨j, hj, by rw [hjr]; exact hPr, hfirst, s, by rw [hjr]; exact hs,
        ?_, ?_, ?_⟩
      · rw [hres, hjr]
      · rw [hres, hjr, hs]
        simp
      · rw [hres, hjr]

/-- Base row used by the C5 witness: below the reorder point on day 2. -/
def rbW5 : BaseRow :=
  { bodega := 0, producto := 0, fecha := 2, pronostico_ventas := 1,
    inventario_actual := some 10, stock_seguridad := some 100,
    lead_time := some 1 }

theorem claim_C5_witness :
    (∃ r ∈ activeGrupo [rbW5] [] 0 0, r.alerta = true)
    ∧ (∃ j : ℕ, ∃ hj : j < (activeGrupo [rbW5] [] 0 0).length,
        ((activeGrupo [rbW5] [] 0 0).get (Fin.mk j hj)).alerta = true
        ∧ (∀ k : ℕ, ∀ hk : k < (activeGrupo [rbW5] [] 0 0).length, k < j →
            ((activeGrupo [rbW5] [] 0 0).get (Fin.mk k hk)).alerta = false)
        ∧ ∃ s : ℚ,
            ((activeGrupo [rbW5] [] 0 0).get (Fin.mk j hj)).stock_seguridad = some s
            ∧ (resumenGrupo 0 (activeGrupo [rbW5] [] 0 0)).fecha_reorden =
                some ((activeGrupo [rbW5] [] 0 0).get (Fin.mk j hj)).fecha
            ∧ (resumenGrupo 0 (activeGrupo [rbW5] [] 0 0)).cantidad_sugerida =
                max (s * 2 -
                  ((activeGrupo [rbW5] [] 0 0).get (Fin.mk j hj)).inventario_proyectado) 0
            ∧ (resumenGrupo 0 (activeGrupo [rbW5] [] 0 0)).dias =
                some (⌊((activeGrupo [rbW5] [] 0 0).get (Fin.mk j hj)).fecha⌋ - ⌊(0:ℚ)⌋)) := by
  have heval : activeGrupo [rbW5] [] 0 0 = [mkActive rbW5 9] := by
    simp [activeGrupo, grupo, List.insertionSort, List.orderedInsert, rbW5,
      invInicial, entregasDe, proyectar, mkActive]
    norm_num
  have halerta : (mkActive rbW5 9).alerta = true := by
    simp [mkActive, alertaDe, puntoReordenDe, rbW5]
    norm_num
  have hh : ∃ r ∈ activeGrupo [rbW5] [] 0 0, r.alerta = true := by
    rw [heval]
    exact ⟨mkActive rbW5 9, List.mem_singleton.mpr rfl, halerta⟩
  exact ⟨hh, claim_C5 [rbW5] [] 0 0 0 hh⟩

/-- C6: a group with no alerted row summarizes to a null reorder date, zero
suggested quantity and a null days counter, which classifies as `OK`. -/
theorem claim_C6 (base : List BaseRow) (compras : List Compra) (b p : ℕ)
    (now : ℚ) (h : ∀ r ∈ activeGrupo base compras b p, r.alerta = false) :
    resumenGrupo now (activeGrupo base compras b p) =
      { fecha_reorden := none, cantidad_sugerida := 0, dias := none,
        estado := Estado.ok } := by
  have hfind : (activeGrupo base compras b p).find? (fun r => r.alerta) = none :=
    List.find?_eq_none.mpr fun x hx => by simp [h x hx]
  exact resumenGrupo_none now (activeGrupo base compras b p) hfind

/-- Base row used by the C6 witness: well above the reorder point. -/
def rbW6 : BaseRow :=
  { bodega := 0, producto := 0, fecha := 1, pronostico_ventas := 0,
    inventario_actual := some 100, stock_seguridad := some 1,
    lead_time := some 1 }

theorem claim_C6_witness :
    (∀ r ∈ activeGrupo [rbW6] [] 0 0, r.alerta = false)
    ∧ resumenGrupo 0 (activeGrupo [rbW6] [] 0 0) =
        { fecha_reorden := none, cantidad_sugerida := 0, dias := none,
          estado := Estado.ok } := by
  have heval : activeGrupo [rbW6] [] 0 0 = [mkActive rbW6 100] := by
    simp [activeGrupo, grupo, List.insertionSort, List.orderedInsert, rbW6,
      invInicial, entregasDe, proyectar, mkActive]
  have hh : ∀ r ∈ activeGrupo [rbW6] [] 0 0, r.alerta = false := by
    rw [heval]
    intro r hr
    rw [List.mem_singleton.mp hr]
    simp [mkActive, alertaDe, puntoReordenDe, rbW6]
  exact ⟨hh, claim_C6 [rbW6] [] 0 0 0 hh⟩

/-- C10: a group whose rows carry no inventory record (null stock columns
after the left join) is still projected, with the running level starting at
zero; its reorder point is null on every row, so no row is ever alerted, and
its summary never has a reorder date or a suggested quantity. -/
theorem claim_C10 (base : List BaseRow) (compras : List Compra) (b p : ℕ)
    (now : ℚ)
    (h : ∀ r ∈ grupo base b p, r.inventario_actual = none
      ∧ r.stock_seguridad = none ∧ r.lead_time = none) :
    invInicial (grupo base b p) = 0
    ∧ (∀ i : ℕ, i < (grupo base b p).length →
        proyEn base compras b p i =
          (((grupo base b p).take (i + 1)).map
            (cambioFila (entregasDe compras b p))).sum)
    ∧ (∀ r ∈ activeGrupo base compras b p,
        r.punto_reorden = none ∧ r.alerta = false)
    ∧ (resumenGrupo now (activeGrupo base compras b p)).fecha_reorden = none
    ∧ (resumenGrupo now (activeGrupo base compras b p)).cantidad_sugerida = 0 := by
  have hinit : invInicial (grupo base b p) = 0 := by
    unfold invInicial
    cases hG : (grupo base b p).head? with
    | none => rfl
    | some r =>
        have hmem : r ∈ grupo base b p := List.mem_of_mem_head? hG
        simp [(h r hmem).1]
  have hrows : ∀ r ∈ activeGrupo base compras b p,
      r.punto_reorden = none ∧ r.alerta = false := by
    intro r hr
    obtain ⟨rb, hrb, v, rfl⟩ := activeGrupo_map_base base compras b p r hr
    have hnull := h rb hrb
    have hpunto : puntoReordenDe rb = none := by
      cases hl : rb.lead_time <;> simp [puntoReordenDe, hnull.2.1, hl]
    constructor
    · simpa [mkActive] using hpunto
    · simp [mkActive, alertaDe, hpunto]
  have hfind : (activeGrupo base compras b p).find? (fun r => r.alerta) = none :=
    List.find?_eq_none.mpr fun x hx => by simp [(hrows x hx).2]
  have hres := resumenGrupo_none now (activeGrupo base compras b p) hfind
  refine ⟨hinit, ?_, hrows, by rw [hres], by rw [hres]⟩
  intro i hi
  rw [proyEn_eq base compras b p i hi, hinit, zero_add]

/-- Base row with no inventory record, used by the C10 witness. -/
def rbW10 : BaseRow :=
  { bodega := 0, producto := 0, fecha := 1, pronostico_ventas := 2,
    inventario_actual := none, stock_seguridad := none, lead_time := none }

theorem claim_C10_witness :
    (∀ r ∈ grupo [rbW10] 0 0, r.inventario_actual = none
      ∧ r.stock_seguridad = none ∧ r.lead_time = none)
    ∧ invInicial (grupo [rbW10] 0 0) = 0
    ∧ (0 < (grupo [rbW10] 0 0).length →
        proyEn [rbW10] [] 0 0 0 =
          (((grupo [rbW10] 0 0).take 1).map
            (cambioFila (entregasDe [] 0 0))).sum)
    ∧ (∀ r ∈ activeGrupo [rbW10] [] 0 0,
        r.punto_reorden = none ∧ r.alerta = false)
    ∧ (resumenGrupo 0 (activeGrupo [rbW10] [] 0 0)).fecha_reorden = none
    ∧ (resumenGrupo 0 (activeGrupo [rbW10] [] 0 0)).cantidad_sugerida = 0 := by
  have hh : ∀ r ∈ grupo [rbW10] 0 0, r.inventario_actual = none
      ∧ r.stock_seguridad = none ∧ r.lead_time = none := by
    intro r hr
    simp only [grupo, rbW10, List.insertionSort, List.orderedInsert,
      List.filter] at hr
    norm_num at hr
    rw [hr]
    exact ⟨rfl, rfl, rfl⟩
  have hmain := claim_C10 [rbW10] [] 0 0 0 hh
  exact ⟨hh, hmain.1, fun h0 => hmain.2.1 0 h0, hmain.2.2.1,
    hmain.2.2.2.1, hmain.2.2.2.2⟩

/-- Inventory table for the C7 counterexample: it records key `(0, 0)`. -/
def rawInv7 : List InvRaw :=
  [{ bodega := 0, producto := 0, inventario_actual := 1, stock_seguridad := 1,
     lead_time := 3 }]

/-- Forecast for the C7 counterexample: only key `(1, 1)` is forecast. -/
def rawFor7 : List ForRaw :=
  [{ bodega := 1, producto := 1, fecha := 0, pronostico_ventas := 1 }]

/-- C7 fails as stated: key `(0, 0)` is present in the inventory table, yet
registering a purchase for it fails, because the lookup of line 137 runs on
`base` — the left join keyed by the forecast — and `(0, 0)` has no forecast
rows. -/
theorem claim_C7_counterexample :
    (∃ r ∈ invNorm rawInv7, r.bodega = 0 ∧ r.producto = 0)
    ∧ registrar (baseDe rawInv7 rawFor7) [] 0 0 0 1 =
        .error RegError.unknownKey := by
  constructor
  · refine ⟨aggInv rawInv7 (0, 0), ?_, rfl, rfl⟩
    simp [invNorm, invKeys, rawInv7, claveInv, List.insertionSort,
      List.orderedInsert]
  · have hbase : baseDe rawInv7 rawFor7 =
        [joinRow (invNorm rawInv7) (aggFor rawFor7 (1, 1, 0))] := by
      simp [baseDe, baseOf, forNorm, forKeys, rawFor7, claveFor,
        List.insertionSort, List.orderedInsert]
    rw [hbase]
    have hjoin : (joinRow (invNorm rawInv7) (aggFor rawFor7 (1, 1, 0))).bodega = 1
        ∧ (joinRow (invNorm rawInv7) (aggFor rawFor7 (1, 1, 0))).producto = 1 := by
      unfold joinRow
      cases hb : buscarInv (invNorm rawInv7) (aggFor rawFor7 (1, 1, 0)).bodega
          (aggFor rawFor7 (1, 1, 0)).producto <;>
        simp [aggFor, rawFor7]
    unfold registrar
    rw [List.head?_eq_none_iff.mpr ?hnil]
    case hnil =>
      rw [List.filter_eq_nil_iff]
      intro r hr
      rw [List.mem_singleton.mp hr]
      simp [hjoin.1]

/-- C7 (amended): the registration of lines 135–154 succeeds exactly when
the key has a row in `base` (the forecast-keyed join) whose `lead_time` is
non-null; on any failure nothing is appended and the ledger is unchanged. -/
theorem claim_C7_amended (base : List BaseRow) (compras : List Compra)
    (b p : ℕ) (fc : ℤ) (q : ℚ) :
    ((registrar base compras b p fc q).isOk = true ↔
      ∃ r : BaseRow,
        (base.filter fun r => decide (r.bodega = b ∧ r.producto = p)).head? =
          some r
        ∧ r.lead_time.isSome = true)
    ∧ (∀ l : List Compra, registrar base compras b p fc q = .ok l →
        ∃ c : Compra, l = compras ++ [c])
    ∧ (∀ e : RegError, registrar base compras b p fc q = .error e →
        comprasTras (registrar base compras b p fc q) compras = compras) := by
  refine ⟨?_, ?_, ?_⟩
  · unfold registrar
    cases hh : (base.filter fun r => decide (r.bodega = b ∧ r.producto = p)).head? with
    | none => simp [Except.isOk, Except.toBool]
    | some r =>
        cases hl : r.lead_time with
        | none => simp [Except.isOk, Except.toBool, hl]
        | some q' => simp [Except.isOk, Except.toBool, hl]
  · intro l hl
    unfold registrar at hl
    cases hh : (base.filter fun r => decide (r.bodega = b ∧ r.producto = p)).head? with
    | none => rw [hh] at hl; exact absurd hl (by simp)
    | some r =>
        rw [hh] at hl
        dsimp only at hl
        cases hlt : r.lead_time with
        | none => rw [hlt] at hl; exact absurd hl (by simp)
        | some q' =>
            rw [hlt] at hl
            simp only [Except.ok.injEq] at hl
            exact ⟨_, hl.symm⟩
  · intro e he
    rw [he]
    rfl

/-- Inventory/forecast pair on which registration succeeds, for the C7
witness. -/
def rawInvW7 : List InvRaw :=
  [{ bodega := 0, producto := 0, inventario_actual := 1, stock_seguridad := 1,
     lead_time := 3 }]

/-- Forecast with the same key `(0, 0)`, for the C7 witness. -/
def rawForW7 : List ForRaw :=
  [{ bodega := 0, producto := 0, fecha := 0, pronostico_ventas := 1 }]

/-- The single base row obtained from `rawInvW7` and `rawForW7`. -/
def rowW7 : BaseRow :=
  { bodega := 0, producto := 0, fecha := 0, pronostico_ventas := 1,
    inventario_actual := some 1, stock_seguridad := some 1,
    lead_time := some 3 }

/-- Evaluation of the C7 witness base dataset. -/
theorem baseW7_eval : baseDe rawInvW7 rawForW7 = [rowW7] := by
  simp [baseDe, baseOf, forNorm, forKeys, rawForW7, claveFor,
    List.insertionSort, List.orderedInsert, joinRow, buscarInv, invNorm,
    invKeys, rawInvW7, claveInv, aggInv, aggFor, List.find?, rowW7]

theorem claim_C7_amended_witness :
    (registrar (baseDe rawInvW7 rawForW7) [] 0 0 0 2).isOk = true
    ∧ registrar (baseDe rawInvW7 rawForW7) [] 0 0 0 2 =
        .ok [{ bodega := 0, producto := 0, fecha_compra := 0,
               fecha_entrega := 3, cantidad := 2 }]
    ∧ (∃ c : Compra,
        [({ bodega := 0, producto := 0, fecha_compra := 0,
            fecha_entrega := 3, cantidad := 2 } : Compra)] = [] ++ [c]) := by
  have h := claim_C7_amended (baseDe rawInvW7 rawForW7) [] 0 0 0 2
  have hreg : registrar (baseDe rawInvW7 rawForW7) [] 0 0 0 2 =
      .ok [{ bodega := 0, producto := 0, fecha_compra := 0,
             fecha_entrega := 3, cantidad := 2 }] := by
    rw [baseW7_eval]
    unfold registrar
    have hfil : ([rowW7].filter fun r => decide (r.bodega = 0 ∧ r.producto = 0)) =
        [rowW7] := by
      simp [rowW7]
    rw [hfil]
    simp only [List.head?_cons]
    have hlt : rowW7.lead_time = some 3 := rfl
    rw [hlt]
    have hint : pyInt 3 = 3 := by
      unfold pyInt
      rw [if_pos (by norm_num)]
      norm_num
    simp only [hint]
    norm_num
  exact ⟨by rw [hreg]; rfl, hreg, h.2.1 _ hreg⟩

/-- Inventory table for the C8 counterexample: duplicate rows for `(0, 0)`
with lead times 3 and 4, so the aggregated lead time is `7/2`. -/
def rawInv8 : List InvRaw :=
  [{ bodega := 0, producto := 0, inventario_actual := 1, stock_seguridad := 1,
     lead_time := 3 },
   { bodega := 0, producto := 0, inventario_actual := 1, stock_seguridad := 1,
     lead_time := 4 }]

/-- Forecast row for the C8 counterexample. -/
def rawFor8 : List ForRaw :=
  [{ bodega := 0, producto := 0, fecha := 0, pronostico_ventas := 1 }]

/-- The single base row obtained from `rawInv8` and `rawFor8`. -/
def rw8 : BaseRow :=
  { bodega := 0, producto := 0, fecha := 0, pronostico_ventas := 1,
    inventario_actual := some 2, stock_seguridad := some 1,
    lead_time := some (7/2) }

/-- Evaluation of the C8 base dataset. -/
theorem base8_eval : baseDe rawInv8 rawFor8 = [rw8] := by
  simp [baseDe, baseOf, forNorm, forKeys, rawFor8, claveFor,
    List.insertionSort, List.orderedInsert, joinRow, buscarInv, invNorm,
    invKeys, rawInv8, claveInv, aggInv, aggFor, List.find?, rw8]
  norm_num

/-- C8 fails as stated: with duplicate inventory rows averaging to a lead
time of `7/2` days, a purchase ordered on day 10 is stored with delivery on
day 13 (`int()` truncation at line 139), not day `10 + 7/2`. -/
theorem claim_C8_counterexample :
    ((invNorm rawInv8).map fun r => r.lead_time) = [7/2]
    ∧ registrar (baseDe rawInv8 rawFor8) [] 0 0 10 1 =
        .ok [{ bodega := 0, producto := 0, fecha_compra := 10,
               fecha_entrega := 13, cantidad := 1 }]
    ∧ (13 : ℚ) ≠ 10 + 7/2 := by
  refine ⟨?_, ?_, by norm_num⟩
  · simp [invNorm, invKeys, rawInv8, claveInv, List.insertionSort,
      List.orderedInsert, aggInv]
    norm_num
  · rw [base8_eval]
    unfold registrar
    have hfil : ([rw8].filter fun r => decide (r.bodega = 0 ∧ r.producto = 0)) =
        [rw8] := by
      simp [rw8]
    rw [hfil]
    simp only [List.head?_cons]
    have hlt : rw8.lead_time = some (7/2) := rfl
    rw [hlt]
    have hint : pyInt (7/2) = 3 := by
      unfold pyInt
      rw [if_pos (by norm_num)]
      norm_num
    simp only [hint]
    norm_num [rw8]

/-- C8 (amended): a successful registration stores
`fecha_entrega = fecha_compra + int(lead_time)` days, where `lead_time` is
the (possibly fractional) averaged lead time carried by the key's first base
row and `int` truncates toward zero. -/
theorem claim_C8_amended (base : List BaseRow) (compras : List Compra)
    (b p : ℕ) (fc : ℤ) (q : ℚ) (r : BaseRow) (lt : ℚ)
    (h1 : (base.filter fun r => decide (r.bodega = b ∧ r.producto = p)).head? =
      some r)
    (h2 : r.lead_time = some lt) :
    registrar base compras b p fc q =
      .ok (compras ++
        [{ bodega := b, producto := p, fecha_compra := (fc : ℚ),
           fecha_entrega := ((fc + pyInt lt : ℤ) : ℚ), cantidad := q }]) := by
  unfold registrar
  rw [h1]
  dsimp only
  rw [h2]

theorem claim_C8_amended_witness :
    ((baseDe rawInv8 rawFor8).filter
        fun r => decide (r.bodega = 0 ∧ r.producto = 0)).head? = some rw8
    ∧ rw8.lead_time = some (7/2)
    ∧ registrar (baseDe rawInv8 rawFor8) [] 0 0 10 1 =
        .ok ([] ++
          [{ bodega := 0, producto := 0, fecha_compra := (10:ℚ),
             fecha_entrega := ((10 + pyInt (7/2) : ℤ) : ℚ),
             cantidad := 1 }]) := by
  have hfil : ((baseDe rawInv8 rawFor8).filter
      fun r => decide (r.bodega = 0 ∧ r.producto = 0)).head? = some rw8 := by
    rw [base8_eval]
    simp [rw8]
  exact ⟨hfil, rfl,
    claim_C8_amended (baseDe rawInv8 rawFor8) [] 0 0 10 1 rw8 (7/2) hfil rfl⟩

-- Field projections of the left join (line 55): the join only attaches
-- inventory columns and keeps the forecast key columns.

theorem joinRow_bodega (inv : List InvRec) (f : ForRec) :
    (joinRow inv f).bodega = f.bodega := by
  unfold joinRow
  cases buscarInv inv f.bodega f.producto <;> rfl

theorem joinRow_producto (inv : List InvRec) (f : ForRec) :
    (joinRow inv f).producto = f.producto := by
  unfold joinRow
  cases buscarInv inv f.bodega f.producto <;> rfl

theorem joinRow_fecha (inv : List InvRec) (f : ForRec) :
    (joinRow inv f).fecha = f.fecha := by
  unfold joinRow
  cases buscarInv inv f.bodega f.producto <;> rfl

/-- C9: the normalizer aggregates the inventory by `(bodega, producto)` with
`inventario_actual` summed and `stock_seguridad` and `lead_time` averaged
(sum over count), covers every raw inventory key, aggregates the forecast by
`(bodega, producto, fecha)` with `pronostico_ventas` summed, covers every
raw forecast key, and the resulting base dataset is sorted by
`(bodega, producto, fecha)` ascending. -/
theorem claim_C9 (rawInv : List InvRaw) (rawFor : List ForRaw) :
    (∀ r ∈ invNorm rawInv,
        r.inventario_actual =
          ((rawInv.filter fun x =>
              decide (x.bodega = r.bodega ∧ x.producto = r.producto)).map
            fun x => x.inventario_actual).sum
        ∧ r.stock_seguridad =
            ((rawInv.filter fun x =>
                decide (x.bodega = r.bodega ∧ x.producto = r.producto)).map
              fun x => x.stock_seguridad).sum /
            ((rawInv.filter fun x =>
                decide (x.bodega = r.bodega ∧ x.producto = r.producto)).length)
        ∧ r.lead_time =
            ((rawInv.filter fun x =>
                decide (x.bodega = r.bodega ∧ x.producto = r.producto)).map
              fun x => x.lead_time).sum /
            ((rawInv.filter fun x =>
                decide (x.bodega = r.bodega ∧ x.producto = r.producto)).length))
    ∧ (∀ x ∈ rawInv, ∃ r ∈ invNorm rawInv,
        r.bodega = x.bodega ∧ r.producto = x.producto)
    ∧ (∀ f ∈ forNorm rawFor,
        f.pronostico_ventas =
          ((rawFor.filter fun x =>
              decide (x.bodega = f.bodega ∧ x.producto = f.producto
                ∧ x.fecha = f.fecha)).map
            fun x => x.pronostico_ventas).sum)
    ∧ (∀ x ∈ rawFor, ∃ f ∈ forNorm rawFor,
        f.bodega = x.bodega ∧ f.producto = x.producto ∧ f.fecha = x.fecha)
    ∧ (baseDe rawInv rawFor).Sorted baseRowLe := by
  refine ⟨?_, ?_, ?_, ?_, ?_⟩
  · intro r hr
    obtain ⟨k, hk, rfl⟩ := List.mem_map.mp hr
    have hpred : (fun x : InvRaw =>
        decide (x.bodega = (aggInv rawInv k).bodega
          ∧ x.producto = (aggInv rawInv k).producto)) =
        fun x => decide (claveInv x = k) := by
      funext x
      apply decide_eq_decide.mpr
      show (x.bodega = k.1 ∧ x.producto = k.2) ↔ claveInv x = k
      constructor
      · rintro ⟨h1, h2⟩
        exact Prod.ext_iff.mpr ⟨h1, h2⟩
      · intro h
        exact ⟨congrArg Prod.fst h, congrArg Prod.snd h⟩
    refine ⟨?_, ?_, ?_⟩ <;> rw [hpred] <;> rfl
  · intro x hx
    refine ⟨aggInv rawInv (claveInv x), ?_, rfl, rfl⟩
    exact List.mem_map_of_mem (aggInv rawInv)
      ((List.perm_insertionSort keyLe2 _).mem_iff.mpr
        (List.mem_dedup.mpr (List.mem_map_of_mem claveInv hx)))
  · intro f hf
    obtain ⟨k, hk, rfl⟩ := List.mem_map.mp hf
    have hpred : (fun x : ForRaw =>
        decide (x.bodega = (aggFor rawFor k).bodega
          ∧ x.producto = (aggFor rawFor k).producto
          ∧ x.fecha = (aggFor rawFor k).fecha)) =
        fun x => decide (claveFor x = k) := by
      funext x
      apply decide_eq_decide.mpr
      show (x.bodega = k.1 ∧ x.producto = k.2.1 ∧ x.fecha = k.2.2) ↔
        claveFor x = k
      constructor
      · rintro ⟨h1, h2, h3⟩
        exact Prod.ext_iff.mpr ⟨h1, Prod.ext_iff.mpr ⟨h2, h3⟩⟩
      · intro h
        exact ⟨congrArg Prod.fst h,
          congrArg (Prod.fst ∘ Prod.snd) h, congrArg (Prod.snd ∘ Prod.snd) h⟩
    rw [hpred]
    rfl
  · intro x hx
    refine ⟨aggFor rawFor (claveFor x), ?_, rfl, rfl, rfl⟩
    exact List.mem_map_of_mem (aggFor rawFor)
      ((List.perm_insertionSort keyLe3 _).mem_iff.mpr
        (List.mem_dedup.mpr (List.mem_map_of_mem claveFor hx)))
  · have hkeys : (forKeys rawFor).Sorted keyLe3 :=
      List.sorted_insertionSort keyLe3 _
    have hbase : baseDe rawInv rawFor =
        (forKeys rawFor).map
          (fun k => joinRow (invNorm rawInv) (aggFor rawFor k)) := by
      unfold baseDe baseOf forNorm
      rw [List.map_map]
      rfl
    rw [hbase]
    refine List.pairwise_map.mpr (hkeys.imp ?_)
    intro a b hab
    show baseRowLe (joinRow (invNorm rawInv) (aggFor rawFor a))
      (joinRow (invNorm rawInv) (aggFor rawFor b))
    unfold baseRowLe
    rw [joinRow_bodega, joinRow_producto, joinRow_fecha,
      joinRow_bodega, joinRow_producto, joinRow_fecha]
    exact hab

/-- Inventory table with duplicate `(0, 0)` rows, for the C9 witness. -/
def rawInvW9 : List InvRaw :=
  [{ bodega := 0, producto := 0, inventario_actual := 1, stock_seguridad := 2,
     lead_time := 3 },
   { bodega := 0, producto := 0, inventario_actual := 3, stock_seguridad := 4,
     lead_time := 5 }]

/-- Forecast with two rows sharing `(0, 0, 1)`, for the C9 witness. -/
def rawForW9 : List ForRaw :=
  [{ bodega := 0, producto := 0, fecha := 1, pronostico_ventas := 2 },
   { bodega := 0, producto := 0, fecha := 1, pronostico_ventas := 3 }]

theorem claim_C9_witness :
    (aggInv rawInvW9 (0, 0) ∈ invNorm rawInvW9)
    ∧ (aggInv rawInvW9 (0, 0)).inventario_actual = 4
    ∧ (aggInv rawInvW9 (0, 0)).stock_seguridad = 3
    ∧ (aggInv rawInvW9 (0, 0)).lead_time = 4
    ∧ (aggFor rawForW9 (0, 0, 1) ∈ forNorm rawForW9)
    ∧ (aggFor rawForW9 (0, 0, 1)).pronostico_ventas = 5
    ∧ (baseDe rawInvW9 rawForW9).Sorted baseRowLe := by
  have h := claim_C9 rawInvW9 rawForW9
  have hmemI : aggInv rawInvW9 (0, 0) ∈ invNorm rawInvW9 := by
    simp [invNorm, invKeys, rawInvW9, claveInv, List.insertionSort,
      List.orderedInsert]
  have hmemF : aggFor rawForW9 (0, 0, 1) ∈ forNorm rawForW9 := by
    simp [forNorm, forKeys, rawForW9, claveFor, List.insertionSort,
      List.orderedInsert]
  have h1 := h.1 _ hmemI
  have h3 := h.2.2.1 _ hmemF
  refine ⟨hmemI, ?_, ?_, ?_, hmemF, ?_, h.2.2.2.2⟩
  · rw [h1.1]
    simp [rawInvW9, aggInv, claveInv]
    norm_num
  · rw [h1.2.1]
    simp [rawInvW9, aggInv, claveInv]
    norm_num
  · rw [h1.2.2]
    simp [rawInvW9, aggInv, claveInv]
    norm_num
  · rw [h3]
    simp [rawForW9, aggFor, claveFor]
    norm_num
